import Mathlib

/-!
Verification of the SGD optimizer in `src/optimize.py` (class `SGD`).

The embedding is shallow: the numeric float64 computations of the source
(numpy divisions, `np.floor`, `np.ceil`, `np.linspace`, `np.round`) are
modelled over `ℚ` with exact arithmetic, `np.round`'s half-to-even rule
made explicit.  The IEEE value `inf` produced by numpy when dividing a
positive float by `0.0` is modelled by `none` in `Option ℚ`, with the
comparison semantics of `inf` spelled out (`inf < x` is false, `x < inf`
is true for finite `x`).  Python-2 specific behaviour (`None >= x`
evaluating to `False` because `None` sorts below every number) is
modelled explicitly as well.
-/

namespace CnnAnime

/-! ### Batch planner (optimize.py lines 59-80) -/

/-- `np.round`: round half to even (banker's rounding), on exact rationals.
For a non half-integer input it agrees with rounding to the nearest
integer (`round`). -/
def roundHalfEven (q : ℚ) : ℤ :=
  if q - ⌊q⌋ = 1/2 then (if ⌊q⌋ % 2 = 0 then ⌊q⌋ else ⌊q⌋ + 1) else round q

/-- `ideal_nb_batches = float(len(samples)) / self.batch_size` (line 60). -/
def idealNbBatches (n bs : ℕ) : ℚ := (n : ℚ) / (bs : ℚ)

/-- `lower_nb_batches = np.floor(ideal_nb_batches)` (line 61). -/
def lowerNbBatches (n bs : ℕ) : ℤ := ⌊idealNbBatches n bs⌋

/-- `upper_nb_batches = np.ceil(ideal_nb_batches)` (line 62). -/
def upperNbBatches (n bs : ℕ) : ℤ := ⌈idealNbBatches n bs⌉

/-- `abs(flt_nb_samples / k - self.batch_size)` (lines 63-64).
`none` models the IEEE `inf` that numpy returns for a positive float
divided by `0.0` (reachable when `nb_samples < batch_size`, where
`lower_nb_batches = 0`). -/
def batchError (n : ℕ) (k : ℤ) (bs : ℕ) : Option ℚ :=
  if k = 0 then none else some |(n : ℚ) / (k : ℚ) - (bs : ℚ)|

/-- The `<` comparison on errors where `none` is IEEE `inf`:
`inf < x` is false for every `x`, and `x < inf` is true for finite `x`. -/
def optErrLt (a b : Option ℚ) : Prop :=
  match a, b with
  | none, _ => False
  | some _, none => True
  | some x, some y => x < y

instance (a b : Option ℚ) : Decidable (optErrLt a b) :=
  match a, b with
  | none, _ => isFalse fun h => h
  | some _, none => isTrue trivial
  | some x, some y => inferInstanceAs (Decidable (x < y))

/-- The `≤` comparison on errors where `none` is IEEE `inf`. -/
def optErrLe (a b : Option ℚ) : Prop :=
  match a, b with
  | none, none => True
  | none, some _ => False
  | some _, none => True
  | some x, some y => x ≤ y

instance (a b : Option ℚ) : Decidable (optErrLe a b) :=
  match a, b with
  | none, none => isTrue trivial
  | none, some _ => isFalse fun h => h
  | some _, none => isTrue trivial
  | some x, some y => inferInstanceAs (Decidable (x ≤ y))

/-- `nb_batches = (int(lower_nb_batches) if lower_error < upper_error
else int(upper_nb_batches))` (lines 65-66). -/
def nbBatches (n bs : ℕ) : ℤ :=
  if optErrLt (batchError n (lowerNbBatches n bs) bs)
      (batchError n (upperNbBatches n bs) bs) then
    lowerNbBatches n bs
  else
    upperNbBatches n bs

/-- `nb_batches` as a natural number (it is nonnegative on meaningful
inputs). -/
def numBatchesNat (n bs : ℕ) : ℕ := (nbBatches n bs).toNat

/-- The `i`-th point of `np.round(np.linspace(0, len(samples),
num=nb_batches+1))` (lines 69-72): linspace places the `i`-th point at
`i * n / nb_batches`, and `np.round` rounds half to even. -/
def splitPoint (n bs : ℕ) (i : ℕ) : ℤ :=
  roundHalfEven ((i : ℚ) * (n : ℚ) / ((nbBatches n bs : ℤ) : ℚ))

/-- The full list `splits` of `nb_batches + 1` boundaries (lines 69-72). -/
def splits (n bs : ℕ) : List ℤ :=
  (List.range (numBatchesNat n bs + 1)).map (splitPoint n bs)

/-- The per-batch sizes `splits[i+1] - splits[i]` for
`i in range(nb_batches)` (line 79). -/
def batchSizes (n bs : ℕ) : List ℤ :=
  (List.range (numBatchesNat n bs)).map
    (fun i => splitPoint n bs (i + 1) - splitPoint n bs i)

/-- `largest_batch_size`: fold of `max` over the batch sizes starting
from `0` (lines 77-80). -/
def largestBatchSize (n bs : ℕ) : ℤ := (batchSizes n bs).foldl max 0

/-! ### Update rules (optimize.py lines 107-134)

Parameters, gradients and momentum accumulators are modelled as lists of
rationals (one entry per scalar parameter; tensor structure is
irrelevant to the update algebra).  The gradient of the cost with
respect to each parameter is an opaque input.  Theano applies all update
pairs of one compiled step simultaneously, reading only pre-step values
on the right-hand sides. -/

/-- Simple rule (lines 108-112): each parameter becomes
`param - learning_rate * grad`. -/
def simpleUpdates (lr : ℚ) (params grads : List ℚ) : List ℚ :=
  List.zipWith (fun p g => p - lr * g) params grads

/-- Momentum rule, the per-parameter value `cur_update =
mtm * prev_updates[i] + learning_rate * grad` (lines 125-128). -/
def momentumCurUpdates (m lr : ℚ) (prevUpd grads : List ℚ) : List ℚ :=
  List.zipWith (fun v g => m * v + lr * g) prevUpd grads

/-- Momentum rule, one simultaneous step (lines 124-132): the pair of
(new parameters, new accumulators), where
`parameters[i] := parameters[i] - cur_update` and
`prev_updates[i] := cur_update`, both reading the pre-step accumulator. -/
def momentumStep (m lr : ℚ) (params prevUpd grads : List ℚ) : List ℚ × List ℚ :=
  (List.zipWith (fun p c => p - c) params (momentumCurUpdates m lr prevUpd grads),
   momentumCurUpdates m lr prevUpd grads)

/-- The zero-initialized momentum accumulators, one per parameter
(lines 116-121: `np.zeros(param_shape)`). -/
def zeroAccumulators (params : List ℚ) : List ℚ := params.map fun _ => 0

/-! ### Learning-rate schedule, decay branch (optimize.py lines 142-144
and 184-231)

The mutable scheduler state is `prev_acc` (initially `None`),
`prev_dec` (initially `0`) and the shared learning-rate cell
(initially `init_rate`).  One `decayStep` is the body of the
per-epoch `elif self.learning_schedule[0] == 'decay':` branch, with the
measured validation accuracy of that epoch given as input.  Note that
the source lines `prev_dec == 0` (lines 226 and 230) are equality
comparisons, not assignments: they are no-ops, faithfully omitted
here. -/

structure DecayState where
  prevAcc : Option ℚ
  prevDec : ℕ
  rate : ℚ
deriving DecidableEq

/-- Python 2 comparison `prev_acc >= current_acc` where `prev_acc` may be
`None`: in CPython 2, `None` compares below every number, so
`None >= x` is `False`. -/
def pyGe (p : Option ℚ) (a : ℚ) : Prop :=
  match p with
  | none => False
  | some x => x ≥ a

instance (p : Option ℚ) (a : ℚ) : Decidable (pyGe p a) :=
  match p with
  | none => isFalse fun h => h
  | some x => inferInstanceAs (Decidable (x ≥ a))

/-- One epoch-boundary evaluation of the decay schedule
(lines 219-231).  `current_acc != None` always holds since the metric
returns a number, so the guard reduces to `prev_acc >= current_acc`.
The two `prev_dec == 0` no-ops leave `prevDec` unchanged. -/
def decayStep (decay : ℚ) (delay : ℕ) (st : DecayState) (acc : ℚ) : DecayState :=
  let st' :=
    if pyGe st.prevAcc acc then
      if st.prevDec = delay then
        { st with rate := st.rate * decay }
      else
        { st with prevDec := st.prevDec + 1 }
    else
      st
  { st' with prevAcc := some acc }

/-- The decay schedule run over a sequence of measured per-epoch
accuracies. -/
def decayRun (decay : ℚ) (delay : ℕ) (st : DecayState) (accs : List ℚ) : DecayState :=
  accs.foldl (decayStep decay delay) st

/-! ### Configuration dispatch and the control flow of `optimize`
(optimize.py lines 108-134, 147-154, 182-234)

`update_rule` and `learning_schedule` are Python values that are either
a string or a tuple whose first element is a string tag (the numeric
payload of a tuple is irrelevant to dispatch).  Python indexing `v[0]`
yields the first character of a string (as a 1-character string) or the
first element of a tuple; on an empty string it raises `IndexError`,
modelled by `none`. -/

inductive PyConfigVal where
  | str (s : String)
  | tup (head : String) (args : List ℚ)
deriving DecidableEq

/-- Python `v[0]` on a configuration value. -/
def pyIndexZero : PyConfigVal → Option String
  | .str s => if s.isEmpty then none else some (String.singleton s.front)
  | .tup h _ => some h

/-- The error raised by a run of `optimize`, when any. -/
inductive RunError where
  | invalidUpdateRule
  | invalidSchedule
  | indexError
deriving DecidableEq

/-- The update-rule dispatch (lines 108-134): `'simple'` and tags whose
`[0]` is `'momentum'` are accepted; anything else raises
`ValueError("Invalid update rule!")` (an empty string raises
`IndexError` at `self.update_rule[0]`). -/
def ruleCheck (u : PyConfigVal) : Option RunError :=
  if u = .str "simple" then none
  else
    match pyIndexZero u with
    | none => some .indexError
    | some h => if h = "momentum" then none else some .invalidUpdateRule

/-- The schedule dispatch performed at each epoch boundary
(lines 182-234): `'constant'` and tags whose `[0]` is `'decay'` are
accepted; anything else raises
`ValueError(... + " is not a valid learning schedule!")`. -/
def schedCheck (s : PyConfigVal) : Option RunError :=
  if s = .str "constant" then none
  else
    match pyIndexZero s with
    | none => some .indexError
    | some h => if h = "decay" then none else some .invalidSchedule

/-- The observable outcome of a run of `optimize`: how many batch
iterations were invoked (each invocation applies the update rule's
parameter assignments), and the error raised, if any. -/
structure RunOutcome where
  batchesRun : ℕ
  err : Option RunError
deriving DecidableEq

/-- The epoch loop (lines 147-234): each epoch runs `nb` batch
iterations and then evaluates the learning-schedule dispatch; on an
unrecognized schedule the run aborts there. -/
def epochLoop (sched : PyConfigVal) (nb : ℕ) : ℕ → ℕ → RunOutcome
  | 0, ran => ⟨ran, none⟩
  | r + 1, ran =>
    match schedCheck sched with
    | some e => ⟨ran + nb, some e⟩
    | none => epochLoop sched nb r (ran + nb)

/-- The control flow of `SGD.optimize`: the update rule is dispatched
while building the compiled step, before any batch is materialized
(lines 108-134); then `nb_epochs` epochs run, each processing all
`nb_batches` batches before its epoch-boundary schedule dispatch. -/
def runOptimize (rule sched : PyConfigVal) (nbEpochs n bs : ℕ) : RunOutcome :=
  match ruleCheck rule with
  | some e => ⟨0, some e⟩
  | none => epochLoop sched (numBatchesNat n bs) nbEpochs 0

/-- Default `learning_schedule='fixed'` of `SGD.__init__` (line 11). -/
def defaultLearningSchedule : PyConfigVal := .str "fixed"

/-- Default `update_rule='simple'` of `SGD.__init__` (line 12). -/
def defaultUpdateRule : PyConfigVal := .str "simple"

/-! ### Theorems -/

theorem roundHalfEven_intCast (k : ℤ) : roundHalfEven (k : ℚ) = k := by
  unfold roundHalfEven
  rw [Int.floor_intCast, sub_self]
  norm_num [round_intCast]

theorem roundHalfEven_le (q : ℚ) : (roundHalfEven q : ℚ) ≤ q + 1/2 := by
  unfold roundHalfEven
  split_ifs with h h2
  · linarith
  · push_cast; linarith
  · have hb := abs_le.mp (abs_sub_round q)
    linarith [hb.1, hb.2]

theorem roundHalfEven_ge (q : ℚ) : q - 1/2 ≤ (roundHalfEven q : ℚ) := by
  unfold roundHalfEven
  split_ifs with h h2
  · linarith
  · push_cast; linarith
  · have hb := abs_le.mp (abs_sub_round q)
    linarith [hb.1, hb.2]

theorem roundHalfEven_lt (x y : ℚ) (h : x + 1 < y) :
    roundHalfEven x < roundHalfEven y := by
  have h1 := roundHalfEven_le x
  have h2 := roundHalfEven_ge y
  have : (roundHalfEven x : ℚ) < (roundHalfEven y : ℚ) := by linarith
  exact_mod_cast this

theorem roundHalfEven_natCast (k : ℕ) : roundHalfEven ((k:ℕ):ℚ) = (k:ℤ) := by
  exact_mod_cast roundHalfEven_intCast (k:ℤ)

theorem one_le_upperNbBatches {n bs : ℕ} (hn : 1 ≤ n) (hbs : 1 ≤ bs) :
    1 ≤ upperNbBatches n bs := by
  unfold upperNbBatches idealNbBatches
  have hpos : (0:ℚ) < (n:ℚ) / (bs:ℚ) :=
    div_pos (by exact_mod_cast hn) (by exact_mod_cast hbs)
  have := Int.ceil_pos.mpr hpos
  omega

theorem upperNbBatches_le {n bs : ℕ} (hbs : 1 ≤ bs) :
    upperNbBatches n bs ≤ (n : ℤ) := by
  unfold upperNbBatches idealNbBatches
  rw [Int.ceil_le]
  push_cast
  exact div_le_self (by positivity) (by exact_mod_cast hbs)

theorem nbBatches_cases (n bs : ℕ) :
    nbBatches n bs = lowerNbBatches n bs ∨ nbBatches n bs = upperNbBatches n bs := by
  unfold nbBatches
  split_ifs with h
  · left; rfl
  · right; rfl

theorem one_le_nbBatches {n bs : ℕ} (hn : 1 ≤ n) (hbs : 1 ≤ bs) :
    1 ≤ nbBatches n bs := by
  unfold nbBatches
  split_ifs with h
  · have h0 : 0 ≤ lowerNbBatches n bs := by
      unfold lowerNbBatches idealNbBatches
      exact Int.floor_nonneg.mpr (by positivity)
    have hne : lowerNbBatches n bs ≠ 0 := by
      intro he
      rw [he] at h
      simp [batchError, optErrLt] at h
    omega
  · exact one_le_upperNbBatches hn hbs

theorem nbBatches_le_n {n bs : ℕ} (hbs : 1 ≤ bs) : nbBatches n bs ≤ (n : ℤ) := by
  rcases nbBatches_cases n bs with h | h <;> rw [h]
  · exact le_trans (Int.floor_le_ceil _) (upperNbBatches_le hbs)
  · exact upperNbBatches_le hbs

theorem numBatchesNat_cast {n bs : ℕ} (hn : 1 ≤ n) (hbs : 1 ≤ bs) :
    ((numBatchesNat n bs : ℕ) : ℤ) = nbBatches n bs := by
  unfold numBatchesNat
  exact Int.toNat_of_nonneg (by have := one_le_nbBatches hn hbs; omega)

theorem splitPoint_zero (n bs : ℕ) : splitPoint n bs 0 = 0 := by
  unfold splitPoint
  rw [Nat.cast_zero, zero_mul, zero_div]
  simpa using roundHalfEven_intCast 0

theorem splitPoint_last {n bs : ℕ} (hn : 1 ≤ n) (hbs : 1 ≤ bs) :
    splitPoint n bs (numBatchesNat n bs) = (n : ℤ) := by
  unfold splitPoint
  have h1 : 1 ≤ nbBatches n bs := one_le_nbBatches hn hbs
  have hc : ((numBatchesNat n bs : ℕ) : ℚ) = ((nbBatches n bs : ℤ) : ℚ) := by
    exact_mod_cast congrArg (fun z : ℤ => (z : ℚ)) (numBatchesNat_cast hn hbs)
  rw [hc]
  have hne : ((nbBatches n bs : ℤ) : ℚ) ≠ 0 := by
    have : (1:ℚ) ≤ ((nbBatches n bs : ℤ) : ℚ) := by exact_mod_cast h1
    linarith
  rw [mul_comm, mul_div_assoc, div_self hne, mul_one]
  exact roundHalfEven_natCast n

theorem splitPoint_strictMono {n bs : ℕ} (hn : 1 ≤ n) (hbs : 1 ≤ bs) (i : ℕ) :
    splitPoint n bs i < splitPoint n bs (i + 1) := by
  have h1 : 1 ≤ nbBatches n bs := one_le_nbBatches hn hbs
  have hle : nbBatches n bs ≤ (n : ℤ) := nbBatches_le_n hbs
  have hc1 : (1:ℚ) ≤ ((nbBatches n bs : ℤ) : ℚ) := by exact_mod_cast h1
  have hc0 : (0:ℚ) < ((nbBatches n bs : ℤ) : ℚ) := by linarith
  have hcn : ((nbBatches n bs : ℤ) : ℚ) ≤ ((n:ℕ) : ℚ) := by exact_mod_cast hle
  unfold splitPoint
  rcases eq_or_lt_of_le hcn with heq | hlt
  · -- nb_batches = n: every linspace point is the integer i
    have hxi : ∀ j : ℕ, ((j:ℕ):ℚ) * ((n:ℕ):ℚ) / ((nbBatches n bs : ℤ) : ℚ) = (j:ℚ) := by
      intro j
      rw [← heq, mul_div_assoc, div_self (by linarith), mul_one]
    rw [hxi i, hxi (i+1)]
    rw [roundHalfEven_natCast i, roundHalfEven_natCast (i+1)]
    omega
  · -- nb_batches < n: the linspace gap n / nb_batches exceeds 1
    apply roundHalfEven_lt
    have hgap : (1:ℚ) < ((n:ℕ):ℚ) / ((nbBatches n bs : ℤ) : ℚ) :=
      (one_lt_div hc0).mpr hlt
    have hsplit : (((i+1:ℕ)):ℚ) * ((n:ℕ):ℚ) / ((nbBatches n bs : ℤ) : ℚ) =
        ((i:ℕ):ℚ) * ((n:ℕ):ℚ) / ((nbBatches n bs : ℤ) : ℚ) +
        ((n:ℕ):ℚ) / ((nbBatches n bs : ℤ) : ℚ) := by
      push_cast
      ring
    rw [hsplit]
    linarith

theorem splits_chain {n bs : ℕ} (hn : 1 ≤ n) (hbs : 1 ≤ bs) :
    List.Chain' (fun a b : ℤ => a < b) (splits n bs) := by
  unfold splits
  rw [List.chain'_map]
  exact (List.chain'_range_succ _ _).mpr
    (fun m _ => splitPoint_strictMono hn hbs m)

theorem splits_head (n bs : ℕ) :
    (splits n bs).head? = some (splitPoint n bs 0) := by
  unfold splits
  rw [List.range_succ_eq_map]
  rfl

theorem splits_last (n bs : ℕ) :
    (splits n bs).getLast? = some (splitPoint n bs (numBatchesNat n bs)) := by
  unfold splits
  rw [List.range_succ, List.map_append]
  simp

theorem splits_length (n bs : ℕ) :
    (splits n bs).length = numBatchesNat n bs + 1 := by
  unfold splits
  rw [List.length_map, List.length_range]

theorem sum_map_range_sub (g : ℕ → ℤ) (k : ℕ) :
    ((List.range k).map (fun i => g (i + 1) - g i)).sum = g k - g 0 := by
  induction k with
  | zero => simp
  | succ k ih =>
    rw [List.range_succ, List.map_append, List.sum_append, ih]
    simp

theorem foldl_max_init (l : List ℤ) : ∀ a : ℤ, a ≤ l.foldl max a := by
  induction l with
  | nil => intro a; simp
  | cons x t ih => intro a; exact le_trans (le_max_left a x) (ih (max a x))

theorem mem_le_foldl_max (l : List ℤ) : ∀ a : ℤ, ∀ x ∈ l, x ≤ l.foldl max a := by
  induction l with
  | nil => intro a x hx; simp at hx
  | cons y t ih =>
    intro a x hx
    rcases List.mem_cons.mp hx with rfl | hx
    · exact le_trans (le_max_right a x) (foldl_max_init t (max a x))
    · exact ih (max a y) x hx

theorem optErrLe_refl (a : Option ℚ) : optErrLe a a := by
  cases a <;> simp [optErrLe]

theorem optErrLe_of_lt {a b : Option ℚ} (h : optErrLt a b) : optErrLe a b := by
  cases a <;> cases b <;> simp_all [optErrLt, optErrLe]
  linarith

theorem optErrLe_of_not_lt {a b : Option ℚ} (h : ¬ optErrLt a b) : optErrLe b a := by
  cases a <;> cases b <;> simp_all [optErrLt, optErrLe]

theorem nbBatches_min_lower (n bs : ℕ) :
    optErrLe (batchError n (nbBatches n bs) bs)
      (batchError n (lowerNbBatches n bs) bs) := by
  unfold nbBatches
  split_ifs with h
  · exact optErrLe_refl _
  · exact optErrLe_of_not_lt h

theorem nbBatches_min_upper (n bs : ℕ) :
    optErrLe (batchError n (nbBatches n bs) bs)
      (batchError n (upperNbBatches n bs) bs) := by
  unfold nbBatches
  split_ifs with h
  · exact optErrLe_of_lt h
  · exact optErrLe_refl _

/-- C1: for every `nb_samples ≥ 1` and `batch_size ≥ 1`, the batch
planning at the start of `optimize` produces `nb_batches + 1` split
boundaries that are strictly increasing, start at 0 and end at
`nb_samples`, and the chosen `nb_batches` is whichever of the floor and
ceiling of `nb_samples / batch_size` minimizes the absolute deviation
`|nb_samples / nb_batches - batch_size|`. -/
theorem C1_batch_plan (n bs : ℕ) (hn : 1 ≤ n) (hbs : 1 ≤ bs) :
    (splits n bs).length = numBatchesNat n bs + 1 ∧
    (splits n bs).head? = some 0 ∧
    (splits n bs).getLast? = some (n : ℤ) ∧
    List.Chain' (fun a b : ℤ => a < b) (splits n bs) ∧
    (nbBatches n bs = lowerNbBatches n bs ∨ nbBatches n bs = upperNbBatches n bs) ∧
    optErrLe (batchError n (nbBatches n bs) bs) (batchError n (lowerNbBatches n bs) bs) ∧
    optErrLe (batchError n (nbBatches n bs) bs) (batchError n (upperNbBatches n bs) bs) :=
  ⟨splits_length n bs,
   by rw [splits_head, splitPoint_zero],
   by rw [splits_last, splitPoint_last hn hbs],
   splits_chain hn hbs,
   nbBatches_cases n bs,
   nbBatches_min_lower n bs,
   nbBatches_min_upper n bs⟩

theorem C1_batch_plan_witness :
    (1 ≤ 100 ∧ 1 ≤ 32) ∧
    ((splits 100 32).length = numBatchesNat 100 32 + 1 ∧
     (splits 100 32).head? = some 0 ∧
     (splits 100 32).getLast? = some (100 : ℤ) ∧
     List.Chain' (fun a b : ℤ => a < b) (splits 100 32) ∧
     (nbBatches 100 32 = lowerNbBatches 100 32 ∨
       nbBatches 100 32 = upperNbBatches 100 32) ∧
     optErrLe (batchError 100 (nbBatches 100 32) 32)
       (batchError 100 (lowerNbBatches 100 32) 32) ∧
     optErrLe (batchError 100 (nbBatches 100 32) 32)
       (batchError 100 (upperNbBatches 100 32) 32)) :=
  ⟨⟨by norm_num, by norm_num⟩, C1_batch_plan 100 32 (by norm_num) (by norm_num)⟩

/-- C8: for every `nb_samples ≥ 1` and `batch_size ≥ 1`, the per-batch
sizes `splits[i+1] - splits[i]` sum to `nb_samples`, each batch size is
at most `largest_batch_size`, and when `nb_samples ≥ nb_batches` no
batch is empty. -/
theorem C8_batch_sizes (n bs : ℕ) (hn : 1 ≤ n) (hbs : 1 ≤ bs) :
    (batchSizes n bs).sum = (n : ℤ) ∧
    (∀ s ∈ batchSizes n bs, s ≤ largestBatchSize n bs) ∧
    (nbBatches n bs ≤ (n : ℤ) → ∀ s ∈ batchSizes n bs, 1 ≤ s) := by
  refine ⟨?_, ?_, ?_⟩
  · unfold batchSizes
    rw [sum_map_range_sub (splitPoint n bs) (numBatchesNat n bs)]
    rw [splitPoint_last hn hbs, splitPoint_zero]
    ring
  · intro s hs
    exact mem_le_foldl_max (batchSizes n bs) 0 s hs
  · intro _ s hs
    unfold batchSizes at hs
    obtain ⟨i, _, rfl⟩ := List.mem_map.mp hs
    have := splitPoint_strictMono hn hbs i
    omega

theorem C8_batch_sizes_witness :
    (1 ≤ 10 ∧ 1 ≤ 5) ∧
    ((batchSizes 10 5).sum = (10 : ℤ) ∧
     (∀ s ∈ batchSizes 10 5, s ≤ largestBatchSize 10 5) ∧
     (nbBatches 10 5 ≤ (10 : ℤ) → ∀ s ∈ batchSizes 10 5, 1 ≤ s)) :=
  ⟨⟨by norm_num, by norm_num⟩, C8_batch_sizes 10 5 (by norm_num) (by norm_num)⟩

theorem lowerNbBatches_100_32 : lowerNbBatches 100 32 = 3 := by
  unfold lowerNbBatches idealNbBatches
  norm_num

theorem upperNbBatches_100_32 : upperNbBatches 100 32 = 4 := by
  unfold upperNbBatches idealNbBatches
  rw [show ((100:ℕ):ℚ)/((32:ℕ):ℚ) = 25/8 by norm_num, Int.ceil_eq_iff]
  norm_num

theorem nbBatches_100_32 : nbBatches 100 32 = 3 := by
  have hcond : optErrLt (batchError 100 (lowerNbBatches 100 32) 32)
      (batchError 100 (upperNbBatches 100 32) 32) := by
    rw [lowerNbBatches_100_32, upperNbBatches_100_32]
    have hb1 : batchError 100 3 32 = some (4/3) := by
      unfold batchError
      rw [if_neg (by decide)]
      congr 1
      rw [abs_of_pos (by norm_num)]
      norm_num
    have hb2 : batchError 100 4 32 = some 7 := by
      unfold batchError
      rw [if_neg (by decide)]
      congr 1
      rw [abs_of_neg (by norm_num)]
      norm_num
    rw [hb1, hb2]
    show (4/3 : ℚ) < 7
    norm_num
  unfold nbBatches
  rw [if_pos hcond]
  exact lowerNbBatches_100_32

theorem splitPoint_100_32 (i : ℕ) :
    splitPoint 100 32 i = roundHalfEven ((i : ℚ) * 100 / 3) := by
  unfold splitPoint
  rw [nbBatches_100_32]
  norm_num

/-- C9: for `batch_size = 32` and `nb_samples = 100` the planner selects
`nb_batches = 3` and the boundaries `[0, 33, 67, 100]`. -/
theorem C9_example :
    nbBatches 100 32 = 3 ∧ splits 100 32 = [0, 33, 67, 100] := by
  refine ⟨nbBatches_100_32, ?_⟩
  have hk : numBatchesNat 100 32 = 3 := by
    unfold numBatchesNat
    rw [nbBatches_100_32]
    rfl
  unfold splits
  rw [hk]
  rw [show List.range 4 = [0, 1, 2, 3] from rfl]
  simp only [List.map]
  rw [splitPoint_100_32 0, splitPoint_100_32 1, splitPoint_100_32 2,
    splitPoint_100_32 3]
  norm_num [roundHalfEven, round_eq]

theorem optErrLt_irrefl (a : Option ℚ) : ¬ optErrLt a a := by
  cases a <;> simp [optErrLt]

theorem lowerNbBatches_12_5 : lowerNbBatches 12 5 = 2 := by
  unfold lowerNbBatches idealNbBatches
  norm_num

theorem upperNbBatches_12_5 : upperNbBatches 12 5 = 3 := by
  unfold upperNbBatches idealNbBatches
  rw [show ((12:ℕ):ℚ)/((5:ℕ):ℚ) = 12/5 by norm_num, Int.ceil_eq_iff]
  norm_num

theorem batchError_12_2 : batchError 12 2 5 = some 1 := by
  unfold batchError
  rw [if_neg (by decide)]
  congr 1
  rw [abs_of_pos (by norm_num)]
  norm_num

theorem batchError_12_3 : batchError 12 3 5 = some 1 := by
  unfold batchError
  rw [if_neg (by decide)]
  congr 1
  rw [abs_of_neg (by norm_num)]
  norm_num

theorem nbBatches_12_5 : nbBatches 12 5 = 3 := by
  unfold nbBatches
  rw [lowerNbBatches_12_5, upperNbBatches_12_5, batchError_12_2, batchError_12_3,
    if_neg (optErrLt_irrefl (some 1))]

/-- C2 counterexample: at `nb_samples = 12`, `batch_size = 5` the floor
candidate (2) and the ceiling candidate (3) have the same deviation 1,
yet the planner picks 3, not the floor candidate. -/
theorem C2_counterexample :
    batchError 12 (lowerNbBatches 12 5) 5 = batchError 12 (upperNbBatches 12 5) 5 ∧
    lowerNbBatches 12 5 = 2 ∧ nbBatches 12 5 = 3 ∧
    nbBatches 12 5 ≠ lowerNbBatches 12 5 := by
  refine ⟨?_, lowerNbBatches_12_5, nbBatches_12_5, ?_⟩
  · rw [lowerNbBatches_12_5, upperNbBatches_12_5, batchError_12_2, batchError_12_3]
  · rw [lowerNbBatches_12_5, nbBatches_12_5]
    decide

/-- C2 amended: when the floor and the ceiling candidate have equal
absolute deviation, the planner chooses the ceiling candidate (the
strict `<` in `lower_error < upper_error` fails on a tie, so the
`else` branch, the ceiling, is taken). -/
theorem C2_tie_goes_to_ceiling (n bs : ℕ)
    (h : batchError n (lowerNbBatches n bs) bs
      = batchError n (upperNbBatches n bs) bs) :
    nbBatches n bs = upperNbBatches n bs := by
  unfold nbBatches
  rw [h, if_neg (optErrLt_irrefl _)]

theorem C2_tie_goes_to_ceiling_witness :
    batchError 12 (lowerNbBatches 12 5) 5 = batchError 12 (upperNbBatches 12 5) 5 ∧
    nbBatches 12 5 = upperNbBatches 12 5 := by
  have h : batchError 12 (lowerNbBatches 12 5) 5
      = batchError 12 (upperNbBatches 12 5) 5 := by
    rw [lowerNbBatches_12_5, upperNbBatches_12_5, batchError_12_2, batchError_12_3]
  exact ⟨h, C2_tie_goes_to_ceiling 12 5 h⟩

theorem decayRun_three_flat (f r a : ℚ) :
    decayRun f 2 ⟨none, 0, r⟩ [a, a, a] = ⟨some a, 2, r⟩ := by
  simp [decayRun, decayStep, pyGe, List.foldl]

/-- C3 counterexample: with `patience = 2`, `factor = 1/2`,
`init_rate = 1` and measured accuracy `1/2` after each of the first
three epochs, the learning rate after the 3rd epoch's schedule
evaluation is still `1`, not `init_rate * factor = 1/2`: no decay fires
during those three epochs. -/
theorem C3_counterexample :
    (decayRun (1/2) 2 ⟨none, 0, 1⟩ [1/2, 1/2, 1/2]).rate = 1 ∧
    ((1 : ℚ) ≠ 1 * (1/2)) := by
  rw [decayRun_three_flat]
  norm_num

/-- C3 amended: with `patience = 2` and a non-improving constant
accuracy, no decay fires during the first three epochs (the stall
counter is 0, 1, 2 after epochs 1, 2, 3: the first measured epoch does
not count as a stall because `None >= acc` is false in Python 2, and
the decay test `prev_dec == delay` runs before the increment); the
single first decay is applied during the 4th epoch's evaluation,
after which the rate is `init_rate * factor`. -/
theorem C3_decay_timing (f r a : ℚ) :
    (decayRun f 2 ⟨none, 0, r⟩ [a, a, a]).rate = r ∧
    (decayRun f 2 ⟨none, 0, r⟩ [a, a, a]).prevDec = 2 ∧
    (decayRun f 2 ⟨none, 0, r⟩ [a, a, a, a]).rate = r * f := by
  refine ⟨?_, ?_, ?_⟩
  · rw [decayRun_three_flat]
  · rw [decayRun_three_flat]
  · simp [decayRun, decayStep, pyGe, List.foldl]

/-- C4 counterexample: with `patience = 1`, `factor = 1/2`,
`init_rate = 1` and accuracies `[1/2, 1/2, 1/2]`, the 3rd epoch's
evaluation applies a decay (the rate becomes `1/2`), yet the stall
counter afterwards is `1`, not `0`: the source resets it with the
no-op comparison `prev_dec == 0`. -/
theorem C4_counterexample :
    (decayRun (1/2) 1 ⟨none, 0, 1⟩ [1/2, 1/2, 1/2]).rate = 1/2 ∧
    (decayRun (1/2) 1 ⟨none, 0, 1⟩ [1/2, 1/2, 1/2]).prevDec = 1 ∧
    (decayRun (1/2) 1 ⟨none, 0, 1⟩ [1/2, 1/2, 1/2]).prevDec ≠ 0 := by
  refine ⟨?_, ?_, ?_⟩ <;> simp [decayRun, decayStep, pyGe, List.foldl]

/-- C4 amended: the stall counter is never reset.  One schedule
evaluation either increments it (non-improving epoch whose counter has
not yet reached the patience) or leaves it unchanged: in particular a
decay leaves it equal to the patience, and an improving (or first
measured) epoch leaves it at its previous value — the two
`prev_dec == 0` lines of the source are comparisons, not
assignments. -/
theorem C4_stall_counter_never_reset (f : ℚ) (delay : ℕ) (st : DecayState) (a : ℚ) :
    (decayStep f delay st a).prevDec =
      (if pyGe st.prevAcc a ∧ st.prevDec ≠ delay then st.prevDec + 1 else st.prevDec) := by
  unfold decayStep
  by_cases h1 : pyGe st.prevAcc a
  · by_cases h2 : st.prevDec = delay
    · simp [h1, h2]
    · simp [h1, h2]
  · simp [h1]

theorem epochLoop_sched_err {sched : PyConfigVal} {e : RunError}
    (hs : schedCheck sched = some e) (nb k ran : ℕ) :
    epochLoop sched nb (k + 1) ran = ⟨ran + nb, some e⟩ := by
  unfold epochLoop
  rw [hs]

theorem runOptimize_first_boundary {rule sched : PyConfigVal} {e : RunError}
    (hr : ruleCheck rule = none) (hs : schedCheck sched = some e)
    {epochs : ℕ} (he : 1 ≤ epochs) (n bs : ℕ) :
    runOptimize rule sched epochs n bs = ⟨numBatchesNat n bs, some e⟩ := by
  obtain ⟨k, rfl⟩ : ∃ k, epochs = k + 1 := ⟨epochs - 1, by omega⟩
  simp only [runOptimize, hr]
  rw [epochLoop_sched_err hs, Nat.zero_add]

theorem ruleCheck_simple : ruleCheck (.str "simple") = none := rfl

theorem schedCheck_bogus : schedCheck (.str "bogus") = some RunError.invalidSchedule := rfl

theorem ruleCheck_default : ruleCheck defaultUpdateRule = none := rfl

theorem schedCheck_default : schedCheck defaultLearningSchedule = some RunError.invalidSchedule := rfl

theorem lowerNbBatches_10_5 : lowerNbBatches 10 5 = 2 := by
  unfold lowerNbBatches idealNbBatches
  norm_num

theorem upperNbBatches_10_5 : upperNbBatches 10 5 = 2 := by
  unfold upperNbBatches idealNbBatches
  rw [show ((10:ℕ):ℚ)/((5:ℕ):ℚ) = ((2:ℤ):ℚ) by norm_num, Int.ceil_intCast]

theorem nbBatches_10_5 : nbBatches 10 5 = 2 := by
  unfold nbBatches
  rw [lowerNbBatches_10_5, upperNbBatches_10_5, if_neg (optErrLt_irrefl _)]

theorem numBatchesNat_10_5 : numBatchesNat 10 5 = 2 := by
  unfold numBatchesNat
  rw [nbBatches_10_5]
  rfl

/-- C5 counterexample: with a valid update rule, an unrecognized
learning-schedule identifier `'bogus'`, one epoch, 10 samples and
batch size 5, the run raises the schedule `ValueError` only after 2
batch iterations (the whole first epoch) have run and applied their
parameter updates — not before training starts. -/
theorem C5_counterexample :
    runOptimize (.str "simple") (.str "bogus") 1 10 5 =
      ⟨2, some RunError.invalidSchedule⟩ ∧ (2 : ℕ) ≠ 0 := by
  constructor
  · rw [runOptimize_first_boundary ruleCheck_simple schedCheck_bogus (by norm_num) 10 5, numBatchesNat_10_5]
  · decide

/-- C5 amended: an unrecognized learning-schedule identifier raises its
configuration error at the first epoch boundary: all `nb_batches`
batch iterations of the first epoch run (each applying its parameter
updates) before the `ValueError` is raised. -/
theorem C5_invalid_schedule_timing (rule sched : PyConfigVal) (e : RunError)
    (epochs n bs : ℕ) (hr : ruleCheck rule = none)
    (hs : schedCheck sched = some e) (he : 1 ≤ epochs) :
    runOptimize rule sched epochs n bs = ⟨numBatchesNat n bs, some e⟩ :=
  runOptimize_first_boundary hr hs he n bs

theorem C5_invalid_schedule_timing_witness :
    ruleCheck (.str "simple") = none ∧
    schedCheck (.str "bogus") = some RunError.invalidSchedule ∧
    (1 ≤ 1) ∧
    runOptimize (.str "simple") (.str "bogus") 1 10 5 =
      ⟨numBatchesNat 10 5, some RunError.invalidSchedule⟩ :=
  ⟨rfl, rfl, by norm_num,
   C5_invalid_schedule_timing (.str "simple") (.str "bogus")
     RunError.invalidSchedule 1 10 5 rfl rfl (by norm_num)⟩

/-- C6: an update-rule identifier that is neither `'simple'` nor a
`'momentum'`-tagged variant (for example the string `'bogus'`) raises
`ValueError("Invalid update rule!")` while the compiled step is being
built, before any batch is materialized and before any epoch begins:
zero batch iterations run, so no parameter is ever updated. -/
theorem C6_invalid_update_rule (rule sched : PyConfigVal) (epochs n bs : ℕ)
    (h0 : String) (h1 : rule ≠ .str "simple")
    (h2 : pyIndexZero rule = some h0) (h3 : h0 ≠ "momentum") :
    runOptimize rule sched epochs n bs = ⟨0, some RunError.invalidUpdateRule⟩ := by
  have hr : ruleCheck rule = some RunError.invalidUpdateRule := by
    simp only [ruleCheck, if_neg h1, h2]
    rw [if_neg h3]
  simp only [runOptimize, hr]

theorem C6_invalid_update_rule_witness :
    (PyConfigVal.str "bogus" ≠ PyConfigVal.str "simple") ∧
    pyIndexZero (.str "bogus") = some "b" ∧ ("b" ≠ "momentum") ∧
    runOptimize (.str "bogus") (.str "constant") 1 10 5 =
      ⟨0, some RunError.invalidUpdateRule⟩ :=
  ⟨by decide, rfl, by decide,
   C6_invalid_update_rule (.str "bogus") (.str "constant") 1 10 5 "b"
     (by decide) rfl (by decide)⟩

/-- C10: the constructor default `learning_schedule='fixed'` is itself
an unrecognized schedule identifier ('fixed' matches neither the
`'constant'` branch nor the `'decay'` branch), so a default-constructed
`SGD.optimize` runs all of the first epoch's batches, applying their
parameter updates, and then raises the schedule `ValueError` at the
first epoch boundary. -/
theorem C10_default_schedule_fixed (epochs n bs : ℕ) (he : 1 ≤ epochs) :
    defaultLearningSchedule = .str "fixed" ∧
    schedCheck defaultLearningSchedule = some RunError.invalidSchedule ∧
    runOptimize defaultUpdateRule defaultLearningSchedule epochs n bs =
      ⟨numBatchesNat n bs, some RunError.invalidSchedule⟩ :=
  ⟨rfl, rfl, runOptimize_first_boundary ruleCheck_default schedCheck_default he n bs⟩

theorem C10_default_schedule_fixed_witness :
    (1 ≤ 1) ∧
    (defaultLearningSchedule = .str "fixed" ∧
     schedCheck defaultLearningSchedule = some RunError.invalidSchedule ∧
     runOptimize defaultUpdateRule defaultLearningSchedule 1 10 5 =
       ⟨numBatchesNat 10 5, some RunError.invalidSchedule⟩) :=
  ⟨by norm_num, C10_default_schedule_fixed 1 10 5 (by norm_num)⟩

theorem zeroAccumulators_cons (p : ℚ) (t : List ℚ) :
    zeroAccumulators (p :: t) = 0 :: zeroAccumulators t := rfl

theorem momentum_first_params (m lr : ℚ) :
    ∀ params grads : List ℚ,
      List.zipWith (fun p c => p - c) params
        (momentumCurUpdates m lr (zeroAccumulators params) grads) =
      simpleUpdates lr params grads := by
  intro params
  induction params with
  | nil => intro grads; rfl
  | cons p t ih =>
    intro grads
    cases grads with
    | nil => rfl
    | cons g gt =>
      rw [zeroAccumulators_cons]
      unfold momentumCurUpdates simpleUpdates at ih ⊢
      rw [List.zipWith_cons_cons, List.zipWith_cons_cons, ih gt]
      congr 1
      ring

theorem momentum_first_accums (m lr : ℚ) :
    ∀ params grads : List ℚ, params.length = grads.length →
      momentumCurUpdates m lr (zeroAccumulators params) grads =
        grads.map (fun g => lr * g) := by
  intro params
  induction params with
  | nil =>
    intro grads h
    cases grads with
    | nil => rfl
    | cons g gt => simp at h
  | cons p t ih =>
    intro grads h
    cases grads with
    | nil => simp at h
    | cons g gt =>
      rw [zeroAccumulators_cons]
      unfold momentumCurUpdates at ih ⊢
      rw [List.zipWith_cons_cons, List.map_cons, ih gt (by simpa using h)]
      congr 1
      ring

/-- C7: for the Momentum(m) rule with all accumulators initialized to
zero, the first simultaneous step assigns `v_p = learning_rate * grad`
and `p := p - learning_rate * grad` for every parameter, identical to
the Simple rule's single-step assignment on the same parameters,
gradients and learning rate. -/
theorem C7_momentum_first_step (m lr : ℚ) (params grads : List ℚ)
    (h : params.length = grads.length) :
    (momentumStep m lr params (zeroAccumulators params) grads).1 =
      simpleUpdates lr params grads ∧
    (momentumStep m lr params (zeroAccumulators params) grads).2 =
      grads.map (fun g => lr * g) :=
  ⟨momentum_first_params m lr params grads,
   momentum_first_accums m lr params grads h⟩

theorem C7_momentum_first_step_witness :
    ([(1:ℚ), 2].length = [(3:ℚ), 4].length) ∧
    ((momentumStep (1/2) 2 [1, 2] (zeroAccumulators [1, 2]) [3, 4]).1 =
       simpleUpdates 2 [1, 2] [3, 4] ∧
     (momentumStep (1/2) 2 [1, 2] (zeroAccumulators [1, 2]) [3, 4]).2 =
       [3, 4].map (fun g => 2 * g)) :=
  ⟨rfl, C7_momentum_first_step (1/2) 2 [1, 2] [3, 4] rfl⟩

end CnnAnime
